import Mathlib

/-!
Shallow embedding of the Google-Maps scraping engine in `src/main.py`.

Pure parsers (`extract_coordinates_from_url`, `clean_business_name`, the
regex-token helpers), the deduplication ledger (`BusinessList.add_business`)
and the scrape orchestration loop (`scrape_google_maps`, the Flask endpoint
`scrape`) are translated into Lean functions.  The browser is abstracted as
an environment of scripted observations (`ScrapeEnv`): each outer-loop
iteration consumes one session script, each inner (scroll) iteration one
batch script, each rendered listing one listing script whose fields record
the outcome of the corresponding Playwright call (`Except.error ()` models a
raised exception, `none` models an absent element, exactly the two paths the
source distinguishes).  Machine floats are modelled as `Rat`: every numeric
literal the parsers see here is a short decimal, represented exactly.

Python string primitives (`str.split`, `str.replace`, `str.strip`) are
re-implemented over `List Char` with a fuel argument so that every
definition is kernel-computable (Lean core string functions use
well-founded recursion, which `decide` cannot evaluate).
-/

deriving instance DecidableEq for Except

/-- Python `s.split(sep)` for a non-empty `sep`: splits at each leftmost
non-overlapping occurrence; the empty string yields `[""]`.  The fuel is the
length of the input, enough for the recursion to finish. -/
def pySplitAux (sep : List Char) : Nat → List Char → List Char → List (List Char)
  | _, [], cur => [cur.reverse]
  | 0, rest, cur => [cur.reverse ++ rest]
  | n + 1, c :: rest, cur =>
    if sep.isPrefixOf (c :: rest) then
      cur.reverse :: pySplitAux sep n ((c :: rest).drop sep.length) []
    else
      pySplitAux sep n rest (c :: cur)

def pySplit (sep cs : List Char) : List (List Char) :=
  if sep = [] then [cs] else pySplitAux sep cs.length cs []

/-- Python `s.replace(pat, rep)` for a non-empty `pat`: replaces every
leftmost non-overlapping occurrence. -/
def pyReplaceAux (pat rep : List Char) : Nat → List Char → List Char
  | _, [] => []
  | 0, rest => rest
  | n + 1, c :: rest =>
    if pat.isPrefixOf (c :: rest) then
      rep ++ pyReplaceAux pat rep n ((c :: rest).drop pat.length)
    else
      c :: pyReplaceAux pat rep n rest

def pyReplace (pat rep cs : List Char) : List Char :=
  if pat = [] then cs else pyReplaceAux pat rep cs.length cs

/-- Python `s.strip()`: removes leading and trailing whitespace. -/
def pyStrip (cs : List Char) : List Char :=
  ((cs.dropWhile Char.isWhitespace).reverse.dropWhile Char.isWhitespace).reverse

/-- Numeric value of a digit run. -/
def digitsVal (cs : List Char) : Nat :=
  cs.foldl (fun n c => 10 * n + (c.toNat - 48)) 0

/-- Model of CPython `float(s)` on the plain decimal shapes that occur in this
program (optional surrounding whitespace, optional sign, digits with an
optional single fractional point).  Returns `none` where `float` raises
`ValueError`.  Exponents, `inf` and `nan` never reach this code. -/
def pyFloat (s : List Char) : Option Rat :=
  let t := pyStrip s
  let (sign, rest) : Int × List Char :=
    match t with
    | '-' :: r => (-1, r)
    | '+' :: r => (1, r)
    | r => (1, r)
  let intPart := rest.takeWhile Char.isDigit
  let after := rest.dropWhile Char.isDigit
  match after with
  | [] => if intPart = [] then none else some (mkRat (sign * digitsVal intPart) 1)
  | '.' :: frac =>
    if frac.all Char.isDigit && !(intPart = [] && frac = []) then
      some (mkRat (sign * (digitsVal intPart * 10 ^ frac.length + digitsVal frac)) (10 ^ frac.length))
    else none
  | _ => none

/-- `extract_coordinates_from_url` (src/main.py lines 73-80):
`url.split('/@')[-1].split('/')[0]` is split on commas; `float` of token 0
and token 1 gives the pair; an `IndexError` (fewer than two comma tokens) or
a `ValueError` (a token `float` rejects) is caught and `(None, None)`
returned — either coordinate failing discards both. -/
def coordsOfParts (parts : List (List Char)) : Option Rat × Option Rat :=
  match parts.get? 0, parts.get? 1 with
  | some a, some b =>
    match pyFloat a, pyFloat b with
    | some lat, some lon => (some lat, some lon)
    | _, _ => (none, none)
  | _, _ => (none, none)

def extract_coordinates_from_url (url : String) : Option Rat × Option Rat :=
  let seg := (pySplit "/@".toList url.toList).getLastD []
  let coordinates := (pySplit "/".toList seg).headD []
  coordsOfParts (pySplit ",".toList coordinates)

/-- `clean_business_name` (src/main.py lines 83-85):
`name.replace(" · Visited link", "").strip() if name else "Unknown"`.
`none` models Python `None`; the empty string is falsy in Python, hence also
maps to `"Unknown"`. -/
def clean_business_name (name : Option String) : String :=
  match name with
  | none => "Unknown"
  | some s =>
    if s = "" then "Unknown"
    else String.mk (pyStrip (pyReplace " · Visited link".toList [] s.toList))

/-- First match of the rating regex `(\d+\.\d+|\d+)` (src/main.py line 259):
at the leftmost digit, a maximal digit run, extended over `.` and a second
digit run when one follows. -/
def numericToken : List Char → Option (List Char)
  | [] => none
  | c :: rest =>
    if c.isDigit then
      let d1 := c :: rest.takeWhile Char.isDigit
      let r := rest.dropWhile Char.isDigit
      some (match r with
        | '.' :: r2 =>
          let d2 := r2.takeWhile Char.isDigit
          if d2 = [] then d1 else d1 ++ '.' :: d2
        | _ => d1)
    else numericToken rest

/-- First match of the review-count regex `(\d+)` (src/main.py line 268):
the leftmost maximal digit run. -/
def digitRun : List Char → Option (List Char)
  | [] => none
  | c :: rest =>
    if c.isDigit then some (c :: rest.takeWhile Char.isDigit)
    else digitRun rest

/-- The `Business` dataclass (src/main.py lines 25-35).  `name` defaults to
Python `None`, hence `Option String`; `reviews_count` is parsed from a digit
run so `Nat` matches the `int` field; the float fields are `Rat`. -/
structure Business where
  name : Option String := none
  address : String := "No Address"
  website : String := "No Website"
  phone_number : String := "No Phone"
  reviews_count : Nat := 0
  reviews_average : Rat := 0
  latitude : Option Rat := none
  longitude : Option Rat := none
deriving DecidableEq, Repr

/-- The identity key `(business.name, business.address, business.phone_number)`
computed at src/main.py line 64. -/
def bkey (b : Business) : Option String × String × String :=
  (b.name, b.address, b.phone_number)

/-- The `BusinessList` dataclass (src/main.py lines 38-70): the ordered
sequence, the CSV directory (used only by the out-of-scope export), and the
`seen_businesses` set of identity keys, modelled as a list used solely
through membership. -/
structure BusinessList where
  business_list : List Business := []
  save_at : String := "output"
  seen_businesses : List (Option String × String × String) := []
deriving DecidableEq, Repr

/-- `BusinessList.add_business` (src/main.py lines 62-70): if the key is
unseen, record it and append the business, returning `True`; otherwise
return `False` leaving both structures unchanged. -/
def BusinessList.add_business (bl : BusinessList) (b : Business) : Bool × BusinessList :=
  let unique_key := bkey b
  if unique_key ∉ bl.seen_businesses then
    (true, { bl with
      seen_businesses := unique_key :: bl.seen_businesses,
      business_list := bl.business_list ++ [b] })
  else
    (false, bl)

/-- A sequence of insertion attempts against a fresh ledger. -/
def add_businesses (bs : List Business) : BusinessList :=
  bs.foldl (fun bl b => (bl.add_business b).2) {}

/-- Scripted outcomes of the Playwright calls made while extracting one
listing (src/main.py lines 235-273).  `Except.error ()` is a raised
exception; for a locator, `none` means the element count was zero (the
`if ...count() > 0` guard fails) and `some` carries the text or attribute. -/
structure FieldEnv where
  aria_label : Except Unit (Option String) := Except.ok none
  address : Except Unit (Option String) := Except.ok none
  website : Except Unit (Option String) := Except.ok none
  phone : Except Unit (Option String) := Except.ok none
  stars_label : Except Unit (Option (Option String)) := Except.ok none
  reviews_text : Except Unit (Option String) := Except.ok none
  page_url : Except Unit String := Except.ok ""

/-- The extraction block inside the `try` at src/main.py lines 235-273: the
fields of a fresh `Business()` are filled in order; a raised exception at
any step propagates out of the whole block (a single `except` covers all
fields), an absent element leaves the field at its dataclass default. -/
def extract_business (env : FieldEnv) : Except Unit Business := do
  let b : Business := {}
  let aria ← env.aria_label
  let b := { b with name := some (clean_business_name aria) }
  let addr ← env.address
  let b := match addr with
    | some s => { b with address := s }
    | none => b
  let site ← env.website
  let b := match site with
    | some s => { b with website := s }
    | none => b
  let ph ← env.phone
  let b := match ph with
    | some s => { b with phone_number := s }
    | none => b
  let stars ← env.stars_label
  let b := match stars with
    | some (some txt) =>
      if txt ≠ "" then
        match numericToken (pyReplace ",".toList ".".toList txt.toList) with
        | some tok => { b with reviews_average := (pyFloat tok).getD 0 }
        | none => b
      else b
    | _ => b
  let rc ← env.reviews_text
  let b := match rc with
    | some txt =>
      if txt ≠ "" then
        match digitRun (pyReplace ",".toList [] txt.toList) with
        | some tok => { b with reviews_count := digitsVal tok }
        | none => b
      else b
    | none => b
  let url ← env.page_url
  let coords := extract_coordinates_from_url url
  pure { b with latitude := coords.1, longitude := coords.2 }

/-- One rendered listing: the outcome of each click attempt (src/main.py
lines 216-230, up to `MAX_CLICK_RETRIES = 5` are tried) and the field
environment for the extraction block. -/
structure ListingScript where
  click_attempts : List Bool := [true]
  fields : FieldEnv := {}

def MAX_CLICK_RETRIES : Nat := 5

/-- Whether the click retry loop succeeds: some of the first five attempts
returns without raising. -/
def clicked (attempts : List Bool) : Bool :=
  (attempts.take MAX_CLICK_RETRIES).any id

/-- The body of `for listing in listings` (src/main.py lines 216-280) for a
single listing, past the target check: a listing that cannot be clicked is
skipped; otherwise the extraction block runs and, when it completes, the
business is offered to the ledger, incrementing `listings_scraped` exactly
when `add_business` accepted it.  An exception inside the block is caught
(lines 279-280) leaving ledger and counter unchanged. -/
def process_listing (script : ListingScript) (ml : BusinessList) (scraped : Nat) :
    BusinessList × Nat :=
  if clicked script.click_attempts then
    match extract_business script.fields with
    | Except.ok b =>
      let r := ml.add_business b
      if r.1 then (r.2, scraped + 1) else (r.2, scraped)
    | Except.error _ => (ml, scraped)
  else (ml, scraped)

/-- The `for listing in listings` loop (src/main.py lines 209-280): before
each listing the target is checked (`if listings_scraped >=
num_listings_to_capture: break`). -/
def process_listings (n : Int) (ls : List ListingScript) (ml : BusinessList) (scraped : Nat) :
    BusinessList × Nat :=
  match ls with
  | [] => (ml, scraped)
  | script :: rest =>
    if n ≤ (scraped : Int) then (ml, scraped)
    else
      let r := process_listing script ml scraped
      process_listings n rest r.1 r.2

/-- One iteration of the scroll loop: whether `locator(...).all()` returned
without raising, the listings it rendered, the listing count observed after
the scroll gesture, and whether the end-of-list marker is visible. -/
structure BatchScript where
  listings_ok : Bool := true
  listings : List ListingScript := []
  new_count : Nat := 0
  end_visible : Bool := false

def MAX_SCROLL_ATTEMPTS : Nat := 10

/-- The mutable state of the inner `while` loop over one search-results view
(src/main.py lines 194-299). -/
structure InnerState where
  ml : BusinessList
  scraped : Nat
  scroll_attempts : Nat
  previously_counted : Nat
deriving DecidableEq, Repr

/-- Outcome of one inner iteration: continue looping or `break`. -/
inductive StepRes where
  | next (s : InnerState)
  | done (s : InnerState)
deriving DecidableEq, Repr

def StepRes.state : StepRes → InnerState
  | .next s => s
  | .done s => s

def StepRes.isDone : StepRes → Bool
  | .next _ => false
  | .done _ => true

/-- The body of the inner `while listings_scraped < num_listings_to_capture`
loop (src/main.py lines 198-299): fetch the rendered listings (an exception
or an empty list breaks), process them, scroll, then compare the new count
with `previously_counted` — an unchanged count increments `scroll_attempts`
and `break`s at `MAX_SCROLL_ATTEMPTS`, a changed count resets it to zero —
and finally `break` if the end-of-list marker is visible. -/
def inner_step (n : Int) (batch : BatchScript) (st : InnerState) : StepRes :=
  if !batch.listings_ok then .done st
  else if batch.listings.isEmpty then .done st
  else
    let r := process_listings n batch.listings st.ml st.scraped
    let new_count := batch.new_count
    if new_count = st.previously_counted then
      let sa := st.scroll_attempts + 1
      if MAX_SCROLL_ATTEMPTS ≤ sa then
        .done ⟨r.1, r.2, sa, st.previously_counted⟩
      else if batch.end_visible then
        .done ⟨r.1, r.2, sa, new_count⟩
      else
        .next ⟨r.1, r.2, sa, new_count⟩
    else
      if batch.end_visible then
        .done ⟨r.1, r.2, 0, new_count⟩
      else
        .next ⟨r.1, r.2, 0, new_count⟩

/-- The inner `while` loop: the guard `listings_scraped <
num_listings_to_capture` is checked before each iteration; the batch list is
the finite script of what the page does at each iteration (the loop stops
when the script is exhausted). -/
def inner_loop (n : Int) (batches : List BatchScript) (st : InnerState) : InnerState :=
  match batches with
  | [] => st
  | batch :: rest =>
    if (st.scraped : Int) < n then
      match inner_step n batch st with
      | .done s => s
      | .next s => inner_loop n rest s
    else st

/-- One outer-loop iteration's scripted session (src/main.py lines 167-192):
whether the search block raised (`continue`), whether the count call raised
(`continue`), the initial listing count (zero means `continue`), and the
scripts of the inner-loop iterations. -/
structure SessionScript where
  search_ok : Bool := true
  count_ok : Bool := true
  initial_count : Nat := 0
  batches : List BatchScript := []

/-- The scripted world of one `scrape_google_maps` run: the city/state pool
read from `uscities.csv`, and one `(random draw, session)` pair per outer
iteration — the draw models `random.choice` as an index into the pool. -/
structure ScrapeEnv where
  pool : List (String × String) := []
  iters : List (Nat × SessionScript) := []

/-- The mutable state of the outer `while` loop, plus the log of the
geographies each session attempt searched (`search_for` at line 165 is
`query in city, state` for the drawn pair). -/
structure OuterState where
  ml : BusinessList
  scraped : Nat
  searched : List (String × String)
deriving DecidableEq, Repr

/-- The outer `while listings_scraped < num_listings_to_capture and
len(cities_states_original) > 0` loop (src/main.py lines 156-299).  Note the
faithful translation of lines 162-163: the drawn pair is removed from a
local copy `cities_states` that is never read again, so the pool passed to
the recursive call is the unchanged original. -/
def scrape_loop (n : Int) (pool : List (String × String))
    (iters : List (Nat × SessionScript)) (st : OuterState) : OuterState :=
  if (st.scraped : Int) < n ∧ pool ≠ [] then
    match iters with
    | [] => st
    | (r, sess) :: rest =>
      match pool.get? (r % pool.length) with
      | none => st
      | some city =>
        let st := { st with searched := st.searched ++ [city] }
        let _cities_states := pool.erase city
        if sess.search_ok then
          if sess.count_ok then
            if sess.initial_count = 0 then
              scrape_loop n pool rest st
            else
              let fin := inner_loop n sess.batches
                ⟨st.ml, st.scraped, 0, sess.initial_count⟩
              scrape_loop n pool rest { st with ml := fin.ml, scraped := fin.scraped }
          else scrape_loop n pool rest st
        else scrape_loop n pool rest st
  else st

/-- The result of `scrape_google_maps`: the ledger's ordered record sequence
(line 311) together with the log of searched geographies. -/
structure ScrapeResult where
  records : List Business
  searched : List (String × String)
deriving DecidableEq, Repr

/-- `scrape_google_maps(query, num_listings_to_capture, headless)`
(src/main.py lines 120-311) over a scripted environment.  An empty pool
returns `[]` at line 129; otherwise the outer loop runs from a fresh
`BusinessList` and zero `listings_scraped`.  The function reads no clock and
takes no time budget.  The CSV save at lines 304-309 is an external sink and
does not affect the returned list. -/
def scrape_google_maps (query : String) (env : ScrapeEnv)
    (num_listings_to_capture : Int) : ScrapeResult :=
  if env.pool = [] then ⟨[], []⟩
  else
    let fin := scrape_loop num_listings_to_capture env.pool env.iters ⟨{}, 0, []⟩
    ⟨fin.ml.business_list, fin.searched⟩

/-- The JSON body of `POST /api/scrape` (src/main.py lines 320-337): `query`
missing maps to Python `None`, `num_listings` missing takes the default 20,
`headless` defaults to true. -/
structure ScrapeRequest where
  query : Option String := none
  num_listings : Option Int := none
  headless : Option Bool := none

/-- The `/api/scrape` handler (src/main.py lines 320-348): status code and
either the serialized record list or an error payload.  A falsy query (Python
`None` or `""`) gives 400; an empty scrape result gives 404 with an error
message; otherwise 200 with the records.  `num_listings` is passed to the
scraper exactly as requested — the handler applies no ceiling. -/
def scrape (req : ScrapeRequest) (env : ScrapeEnv) :
    Nat × Except String (List Business) :=
  match req.query with
  | none => (400, Except.error "Missing query parameter")
  | some q =>
    if q = "" then (400, Except.error "Missing query parameter")
    else
      let num_listings_to_capture := req.num_listings.getD 20
      let results := (scrape_google_maps q env num_listings_to_capture).records
      if results = [] then (404, Except.error "No places found for query")
      else (200, Except.ok results)

/-- A name of `i + 1` letters `a`: the names are pairwise distinct, which the
proofs use through the length of the underlying character list. -/
def aName (i : Nat) : String :=
  String.mk (List.replicate (i + 1) 'a')

/-- A scripted listing whose address element renders `aName i` and whose
other elements are absent: extraction succeeds and yields `mkBusiness i`. -/
def mkListing (i : Nat) : ListingScript :=
  { click_attempts := [true],
    fields := { address := Except.ok (some (aName i)) } }

/-- The record `extract_business` produces for `mkListing i`. -/
def mkBusiness (i : Nat) : Business :=
  { name := some "Unknown", address := aName i }

/-- The identity key of `mkBusiness i`. -/
def mkKey (i : Nat) : Option String × String × String :=
  (some "Unknown", aName i, "No Phone")

/-- A batch rendering `k` distinct listings, after which the listing count
stays at `k` and the end-of-list marker is visible. -/
def batchN (k : Nat) : BatchScript :=
  { listings_ok := true, listings := (List.range k).map mkListing,
    new_count := k, end_visible := true }

/-- A session whose search succeeds with `k` initial listings and the single
batch `batchN k`. -/
def sessN (k : Nat) : SessionScript :=
  { search_ok := true, count_ok := true, initial_count := k, batches := [batchN k] }

/-- An environment with one geography whose single session renders `k`
distinct listings in one batch and then shows the end-of-list marker. -/
def envN (k : Nat) : ScrapeEnv :=
  { pool := [("Springfield", "IL")], iters := [(0, sessN k)] }

/-- The ledger after harvesting the `k` listings of `batchN k`. -/
def mlN (k : Nat) : BusinessList :=
  { business_list := (List.range k).map mkBusiness,
    seen_businesses := ((List.range k).map mkKey).reverse }

/-- Two insertion attempts sharing the identity key, differing in `website`. -/
def wb1 : Business := { name := some "Auto Shop" }

def wb2 : Business := { name := some "Auto Shop", website := "shop.example" }

/-- A listing whose address lookup raises while every other field is
readable: the website and phone elements are present, the map URL parses,
yet the one exception aborts the block. -/
def cexListing : ListingScript :=
  { click_attempts := [true],
    fields := { aria_label := Except.ok (some "Cafe One"),
                address := Except.error (),
                website := Except.ok (some "cafe.example"),
                phone := Except.ok (some "555-0100"),
                page_url := Except.ok "https://www.google.com/maps/place/X/@40.1,-74.2,15z" } }

/-- A two-geography pool where the random draw lands on index 0 both times:
the first session harvests one listing, the second times out on search. -/
def env4 : ScrapeEnv :=
  { pool := [("Austin", "TX"), ("Boston", "MA")],
    iters := [(0, sessN 1), (0, { search_ok := false })] }

/-- Concrete states and batches exercising every branch of C6. -/
def cst1 : InnerState := ⟨{}, 0, 3, 7⟩

def cst9 : InnerState := ⟨{}, 0, 9, 7⟩

def cst5 : InnerState := ⟨{}, 5, 0, 7⟩

def cb1 : BatchScript :=
  { listings_ok := true, listings := [mkListing 0], new_count := 7, end_visible := false }

def cb2 : BatchScript :=
  { listings_ok := true, listings := [mkListing 0], new_count := 9, end_visible := false }

def cb3 : BatchScript :=
  { listings_ok := true, listings := [mkListing 0], new_count := 9, end_visible := true }

/-- An environment in which the scrape finds nothing (the city CSV loaded
empty, src/main.py lines 127-129). -/
def envEmpty : ScrapeEnv := { pool := [], iters := [] }

/-!  ## Ledger invariants  -/

/-- The ledger is well formed: no two records share an identity key, and the
key set holds exactly the keys of the sequence. -/
def ledger_wf (bl : BusinessList) : Prop :=
  (bl.business_list.map bkey).Nodup ∧
  ∀ k, k ∈ bl.seen_businesses ↔ k ∈ bl.business_list.map bkey

theorem ledger_wf_empty : ledger_wf {} := by
  constructor
  · simp [BusinessList.business_list]
  · intro k
    simp [BusinessList.business_list, BusinessList.seen_businesses]

theorem add_business_fresh (bl : BusinessList) (b : Business)
    (h : bkey b ∉ bl.seen_businesses) :
    bl.add_business b =
      (true, { bl with seen_businesses := bkey b :: bl.seen_businesses,
                       business_list := bl.business_list ++ [b] }) := by
  simp [BusinessList.add_business, h]

theorem add_business_dup (bl : BusinessList) (b : Business)
    (h : bkey b ∈ bl.seen_businesses) :
    bl.add_business b = (false, bl) := by
  simp [BusinessList.add_business, h]

theorem ledger_wf_add (bl : BusinessList) (b : Business) (hwf : ledger_wf bl) :
    ledger_wf (bl.add_business b).2 ∧
    (∀ k, k ∈ (bl.add_business b).2.business_list.map bkey ↔
      k = bkey b ∨ k ∈ bl.business_list.map bkey) := by
  by_cases h : bkey b ∈ bl.seen_businesses
  · rw [add_business_dup bl b h]
    refine ⟨hwf, fun k => ?_⟩
    constructor
    · exact Or.inr
    · rintro (rfl | hk)
      · exact (hwf.2 (bkey b)).1 h
      · exact hk
  · rw [add_business_fresh bl b h]
    refine ⟨⟨?_, ?_⟩, ?_⟩
    · simp only [List.map_append, List.map_cons, List.map_nil]
      refine List.Nodup.append hwf.1 (List.nodup_singleton _) ?_
      intro k hk hk'
      simp only [List.mem_singleton] at hk'
      subst hk'
      exact h ((hwf.2 (bkey b)).2 hk)
    · intro k
      simp only [List.mem_cons, List.map_append, List.map_cons, List.map_nil,
        List.mem_append, List.mem_singleton]
      rw [hwf.2 k]
      tauto
    · intro k
      simp only [List.map_append, List.map_cons, List.map_nil, List.mem_append,
        List.mem_singleton]
      tauto

theorem foldl_add_wf (bs : List Business) (bl : BusinessList) (hwf : ledger_wf bl) :
    ledger_wf (bs.foldl (fun acc b => (acc.add_business b).2) bl) ∧
    (∀ k, k ∈ (bs.foldl (fun acc b => (acc.add_business b).2) bl).business_list.map bkey ↔
      (∃ b ∈ bs, bkey b = k) ∨ k ∈ bl.business_list.map bkey) ∧
    (∃ t, (bs.foldl (fun acc b => (acc.add_business b).2) bl).business_list =
      bl.business_list ++ t ∧ t.Sublist bs) := by
  induction bs generalizing bl with
  | nil =>
    refine ⟨hwf, fun k => by simp, [], by simp, List.Sublist.refl _⟩
  | cons b rest ih =>
    simp only [List.foldl_cons]
    obtain ⟨hwf', hmem'⟩ := ledger_wf_add bl b hwf
    obtain ⟨h1, h2, t, ht, hsub⟩ := ih (bl.add_business b).2 hwf'
    refine ⟨h1, ?_, ?_⟩
    · intro k
      rw [h2 k]
      simp only [List.mem_cons]
      rw [hmem' k]
      constructor
      · rintro (⟨b', hb', rfl⟩ | rfl | hk)
        · exact Or.inl ⟨b', Or.inr hb', rfl⟩
        · exact Or.inl ⟨b, Or.inl rfl, rfl⟩
        · exact Or.inr hk
      · rintro (⟨b', hb' | hb', rfl⟩ | hk)
        · exact Or.inr (Or.inl (by rw [hb']))
        · exact Or.inl ⟨b', hb', rfl⟩
        · exact Or.inr (Or.inr hk)
    · by_cases h : bkey b ∈ bl.seen_businesses
      · have hx : (bl.add_business b).2 = bl := by rw [add_business_dup bl b h]
        refine ⟨t, ?_, hsub.cons b⟩
        rw [hx] at ht ⊢
        exact ht
      · have hx : (bl.add_business b).2 =
            { bl with seen_businesses := bkey b :: bl.seen_businesses,
                      business_list := bl.business_list ++ [b] } := by
          rw [add_business_fresh bl b h]
        refine ⟨b :: t, ?_, hsub.cons₂ b⟩
        rw [hx] at ht ⊢
        simpa using ht

theorem filter_key_of_nodup (l : List Business) (k : Option String × String × String)
    (hnd : (l.map bkey).Nodup) (hmem : k ∈ l.map bkey) :
    (l.filter (fun r => bkey r = k)).length = 1 := by
  induction l with
  | nil => simp at hmem
  | cons b rest ih =>
    simp only [List.map_cons, List.nodup_cons] at hnd
    by_cases hb : bkey b = k
    · have hnone : rest.filter (fun r => bkey r = k) = [] := by
        rw [List.filter_eq_nil_iff]
        intro r hr hkr
        simp only [decide_eq_true_eq] at hkr
        exact hnd.1 (hb ▸ hkr ▸ List.mem_map_of_mem bkey hr)
      simp [List.filter_cons, hb, hnone]
    · have hk : k ∈ rest.map bkey := by
        simp only [List.map_cons, List.mem_cons] at hmem
        rcases hmem with rfl | hk
        · exact absurd rfl hb
        · exact hk
      simp only [List.filter_cons, decide_eq_true_eq]
      rw [if_neg hb]
      exact ih hnd.2 hk

/-- Claim C1: `add_business` returns true and inserts the record into both
the ordered sequence and the key set on first sight of an identity key,
returns false and changes neither structure on a repeated key; for any two
insertion attempts with identical `(name, address, phone_number)` keys
exactly one record with that key survives in the result sequence, whatever
the other fields; and the surviving records keep insertion order (they form
a subsequence of the attempt sequence). -/
theorem add_business_dedup :
    (∀ (bl : BusinessList) (b : Business),
      (bkey b ∉ bl.seen_businesses →
        (bl.add_business b).1 = true ∧
        (bl.add_business b).2.business_list = bl.business_list ++ [b] ∧
        (bl.add_business b).2.seen_businesses = bkey b :: bl.seen_businesses) ∧
      (bkey b ∈ bl.seen_businesses → bl.add_business b = (false, bl))) ∧
    (∀ (bs : List Business) (b1 b2 : Business), b1 ∈ bs → b2 ∈ bs →
      bkey b1 = bkey b2 →
      ((add_businesses bs).business_list.filter (fun r => bkey r = bkey b1)).length = 1) ∧
    (∀ bs : List Business, (add_businesses bs).business_list.Sublist bs) := by
  refine ⟨fun bl b => ⟨fun h => ?_, fun h => add_business_dup bl b h⟩, ?_, ?_⟩
  · rw [add_business_fresh bl b h]
    exact ⟨rfl, rfl, rfl⟩
  · intro bs b1 b2 h1 _h2 _hk
    obtain ⟨hwf, hmem, -⟩ := foldl_add_wf bs {} ledger_wf_empty
    refine filter_key_of_nodup _ _ hwf.1 ?_
    exact (hmem (bkey b1)).2 (Or.inl ⟨b1, h1, rfl⟩)
  · intro bs
    obtain ⟨-, -, t, ht, hsub⟩ := foldl_add_wf bs {} ledger_wf_empty
    have : (add_businesses bs).business_list = t := by simpa using ht
    rw [this]
    exact hsub

/-- Witness for C1 at concrete records: the duplicate-key pair collapses to
one surviving record, the fresh insertion is accepted, the repeat rejected. -/
theorem add_business_dedup_witness :
    ((add_businesses [wb1, wb2]).business_list.filter (fun r => bkey r = bkey wb1)).length = 1 ∧
    (({} : BusinessList).add_business wb1).1 = true ∧
    (add_businesses [wb1]).add_business wb2 = (false, add_businesses [wb1]) :=
  ⟨add_business_dedup.2.1 [wb1, wb2] wb1 wb2 (by decide) (by decide) (by decide),
   ((add_business_dedup.1 {} wb1).1 (by decide)).1,
   (add_business_dedup.1 (add_businesses [wb1]) wb2).2 (by decide)⟩

/-!  ## Field-extraction failure (C2)  -/

theorem process_listings_stop (n : Int) (ls : List ListingScript)
    (ml : BusinessList) (s : Nat) (h : n ≤ (s : Int)) :
    process_listings n ls ml s = (ml, s) := by
  cases ls with
  | nil => rfl
  | cons a rest => simp [process_listings, h]

/-- Claim C2 counterexample: for `cexListing` only the address field raises,
every other field is extractable — but extraction aborts at the exception
and the record is never offered to the ledger (the ledger and the counter
are unchanged), contradicting the claim that the record is still produced
and offered. -/
theorem extraction_abort_counterexample :
    extract_business cexListing.fields = Except.error () ∧
    process_listing cexListing {} 0 = ({}, 0) ∧
    (process_listing cexListing {} 0).1.business_list = [] :=
  ⟨rfl, rfl, rfl⟩

/-- Claim C2 as amended: an exception while extracting any field is caught
at the listing level, not the field level — the whole extraction block
aborts, the record is not offered to the ledger and the scraped counter is
unchanged, but the loop continues with the remaining listings of the
batch. -/
theorem extraction_abort_listing_level :
    (∀ (script : ListingScript) (ml : BusinessList) (s : Nat),
      extract_business script.fields = Except.error () →
      process_listing script ml s = (ml, s)) ∧
    (∀ (n : Int) (script : ListingScript) (rest : List ListingScript)
        (ml : BusinessList) (s : Nat),
      extract_business script.fields = Except.error () →
      process_listings n (script :: rest) ml s = process_listings n rest ml s) := by
  have h1 : ∀ (script : ListingScript) (ml : BusinessList) (s : Nat),
      extract_business script.fields = Except.error () →
      process_listing script ml s = (ml, s) := by
    intro script ml s h
    unfold process_listing
    cases hc : clicked script.click_attempts <;> simp [hc, h]
  refine ⟨h1, fun n script rest ml s h => ?_⟩
  by_cases hs : n ≤ (s : Int)
  · rw [process_listings_stop n rest ml s hs]
    simp [process_listings, hs]
  · simp only [process_listings, if_neg hs]
    rw [h1 script ml s h]

/-- Witness for the amended C2 at the concrete aborting listing. -/
theorem extraction_abort_listing_level_witness :
    process_listing cexListing {} 3 = ({}, 3) ∧
    process_listings 5 [cexListing, mkListing 0] {} 0 =
      process_listings 5 [mkListing 0] {} 0 :=
  ⟨extraction_abort_listing_level.1 cexListing {} 3 (by rfl),
   extraction_abort_listing_level.2 5 cexListing [mkListing 0] {} 0 (by rfl)⟩

/-!  ## Runs over fresh scripted listings (used for C3 and C5)  -/

theorem aName_inj {i j : Nat} (h : aName i = aName j) : i = j := by
  have hd := congrArg (fun s => s.data.length) h
  simpa [aName] using hd

theorem mkKey_inj {i j : Nat} (h : mkKey i = mkKey j) : i = j := by
  have := congrArg (fun k => k.2.1) h
  exact aName_inj this

theorem extract_mkListing (i : Nat) :
    extract_business (mkListing i).fields = Except.ok (mkBusiness i) := rfl

theorem bkey_mkBusiness (i : Nat) : bkey (mkBusiness i) = mkKey i := rfl

/-- Processing a batch of scripted listings with pairwise-fresh keys adds
every one of them, in order, incrementing the scraped counter by one each
time, as long as the target leaves room for the whole batch. -/
theorem process_fresh (k : Nat) (i : Nat) (n : Int) (ml : BusinessList) (s : Nat)
    (hn : (s : Int) + k ≤ n)
    (hfresh : ∀ j, j < k → mkKey (i + j) ∉ ml.seen_businesses) :
    process_listings n ((List.range' i k).map mkListing) ml s =
      ({ ml with
          business_list := ml.business_list ++ (List.range' i k).map mkBusiness,
          seen_businesses := ((List.range' i k).map mkKey).reverse ++ ml.seen_businesses },
       s + k) := by
  induction k generalizing i ml s with
  | zero => simp [process_listings]
  | succ k ih =>
    have hs : ¬ n ≤ (s : Int) := by omega
    have hkey : bkey (mkBusiness i) ∉ ml.seen_businesses := by
      rw [bkey_mkBusiness]
      simpa using hfresh 0 (Nat.succ_pos k)
    have hadd := add_business_fresh ml (mkBusiness i) hkey
    have hone : process_listing (mkListing i) ml s =
        ((ml.add_business (mkBusiness i)).2, s + 1) := by
      unfold process_listing
      rw [if_pos (show clicked (mkListing i).click_attempts = true from rfl),
        extract_mkListing i]
      simp [hadd]
    have hstep : process_listings n ((List.range' i (k + 1)).map mkListing) ml s =
        process_listings n ((List.range' (i + 1) k).map mkListing)
          (ml.add_business (mkBusiness i)).2 (s + 1) := by
      rw [List.range'_succ, List.map_cons]
      simp only [process_listings, if_neg hs]
      rw [hone]
    rw [hstep, hadd]
    have hrec := ih (i + 1)
      { ml with seen_businesses := bkey (mkBusiness i) :: ml.seen_businesses,
                business_list := ml.business_list ++ [mkBusiness i] }
      (s + 1) (by push_cast; push_cast at hn; omega)
      (by
        intro j hj
        simp only [List.mem_cons, bkey_mkBusiness]
        push_neg
        constructor
        · intro hcontra
          have := mkKey_inj hcontra
          omega
        · have := hfresh (j + 1) (by omega)
          simpa [Nat.add_assoc, Nat.add_comm 1 j] using this)
    rw [hrec]
    simp only [Prod.mk.injEq]
    constructor
    · rw [List.range'_succ, List.map_cons, List.map_cons]
      simp [bkey_mkBusiness, List.append_assoc]
    · omega

theorem inner_step_envN (k : Nat) (n : Int) (hk : 1 ≤ k) (hn : (k : Int) ≤ n) :
    inner_step n (batchN k) ⟨{}, 0, 0, k⟩ = .done ⟨mlN k, k, 1, k⟩ := by
  have hfresh := process_fresh k 0 n {} 0 (by push_cast; omega) (fun j hj => by simp)
  rw [← List.range_eq_range'] at hfresh
  simp only [show ({} : BusinessList).business_list = [] from rfl,
    show ({} : BusinessList).seen_businesses = [] from rfl, List.nil_append,
    List.append_nil, Nat.zero_add] at hfresh
  unfold inner_step
  rw [if_neg (show ¬ ((!(batchN k).listings_ok) = true) by simp [batchN])]
  rw [if_neg (show ¬ ((batchN k).listings.isEmpty = true) by
    simp [batchN, List.isEmpty_iff, List.range_eq_nil]
    omega)]
  simp only [batchN]
  rw [hfresh]
  simp [MAX_SCROLL_ATTEMPTS, mlN]

theorem scrape_envN (q : String) (k : Nat) (n : Int) (hk : 1 ≤ k) (hn : (k : Int) ≤ n) :
    scrape_google_maps q (envN k) n =
      ⟨(List.range k).map mkBusiness, [("Springfield", "IL")]⟩ := by
  have h0n : (0 : Int) < n := by omega
  unfold scrape_google_maps
  rw [if_neg (show ¬ (envN k).pool = [] by simp [envN])]
  unfold envN
  rw [scrape_loop]
  rw [if_pos (show ((0 : Nat) : Int) < n ∧ [("Springfield", "IL")] ≠ [] from
    ⟨h0n, by simp⟩)]
  simp only [List.length_cons, List.length_nil, Nat.mod_succ, Nat.zero_mod,
    List.get?_cons_zero]
  rw [if_pos (show (sessN k).search_ok = true from rfl)]
  rw [if_pos (show (sessN k).count_ok = true from rfl)]
  rw [if_neg (show ¬ (sessN k).initial_count = 0 by simp [sessN]; omega)]
  have hinner : inner_loop n (sessN k).batches ⟨{}, 0, 0, (sessN k).initial_count⟩ =
      ⟨mlN k, k, 1, k⟩ := by
    show inner_loop n [batchN k] ⟨{}, 0, 0, k⟩ = ⟨mlN k, k, 1, k⟩
    unfold inner_loop
    rw [if_pos (show ((0 : Nat) : Int) < n from h0n)]
    rw [inner_step_envN k n hk hn]
  rw [hinner]
  rw [scrape_loop]
  simp [mlN]

/-- Claim C3 counterexample: `scrape_google_maps` takes no wall-clock budget
and never reads a clock (its arguments are query, target count and headless
flag only, src/main.py line 120).  With a target of 50 and an environment
supplying 9 records — so that a budget said to elapse after the 7th record
has long elapsed — the run returns all 9 records, not the exactly-7 partial
result the claim requires. -/
theorem no_budget_counterexample :
    (scrape_google_maps "coffee" (envN 9) 50).records.length = 9 ∧
    (scrape_google_maps "coffee" (envN 9) 50).records.length ≠ 7 := by
  constructor <;> decide

/-- Claim C3 as amended: no wall-clock budget exists in the code; the
orchestrator stops only on target count, pool/script exhaustion or
end-of-list, so with 9 available records every target of at least 9 returns
all 9 records, never a time-truncated prefix. -/
theorem no_budget_returns_all (n : Int) (hn : 9 ≤ n) :
    (scrape_google_maps "coffee" (envN 9) n).records.length = 9 := by
  rw [scrape_envN "coffee" 9 n (by omega) (by push_cast; omega)]
  simp

/-- Witness for the amended C3 at a concrete large target. -/
theorem no_budget_returns_all_witness :
    (9 : Int) ≤ 1000 ∧
    (scrape_google_maps "coffee" (envN 9) 1000).records.length = 9 :=
  ⟨by norm_num, no_budget_returns_all 1000 (by norm_num)⟩

/-- Claim C4 at the failing input: both session attempts search
`("Austin", "TX")` — the drawn pair is reused because src/main.py lines
162-163 remove it only from a local copy `cities_states` that is never read
again, so `cities_states_original` never shrinks and `random.choice` can
return the same pair for later attempts. -/
theorem geography_redrawn_failing_input :
    (scrape_google_maps "tacos" env4 5).searched =
      [("Austin", "TX"), ("Austin", "TX")] ∧
    (scrape_google_maps "tacos" env4 5).records.length = 1 := by
  constructor <;> decide

/-- Claim C5 counterexample: requesting `num_listings = 1000` against an
environment supplying 6 distinct listings returns all 6 records — more than
the claimed ceiling of 5 — because the handler (src/main.py line 328) passes
the requested count to the scraper with no clamp. -/
theorem no_clamp_counterexample :
    (scrape ⟨some "pizza", some 1000, some true⟩ (envN 6)).2 =
      Except.ok ((List.range 6).map mkBusiness) ∧
    5 < ((List.range 6).map mkBusiness).length := by
  constructor <;> decide

/-- Claim C5 as amended: the target count is taken from the request (default
20) and used unclamped, so no configured ceiling exists: for every bound `m`
some request and environment make the endpoint return more than `m`
records. -/
theorem scrape_eq_of_query (q : String) (nl : Option Int) (hl : Option Bool)
    (env : ScrapeEnv) (hq : ¬ q = "") :
    scrape ⟨some q, nl, hl⟩ env =
      (if (scrape_google_maps q env (nl.getD 20)).records = []
       then (404, Except.error "No places found for query")
       else (200, Except.ok (scrape_google_maps q env (nl.getD 20)).records)) := by
  have h : scrape ⟨some q, nl, hl⟩ env =
      if q = "" then (400, Except.error "Missing query parameter")
      else
        (if (scrape_google_maps q env (nl.getD 20)).records = []
         then (404, Except.error "No places found for query")
         else (200, Except.ok (scrape_google_maps q env (nl.getD 20)).records)) := rfl
  rw [h, if_neg hq]

theorem no_clamp_unbounded (m : Nat) :
    ∃ (req : ScrapeRequest) (env : ScrapeEnv) (l : List Business),
      scrape req env = (200, Except.ok l) ∧ m < l.length := by
  have hres := scrape_envN "pizza" (m + 1) ((m : Int) + 1) (by omega) (by push_cast; omega)
  have hrec : (scrape_google_maps "pizza" (envN (m + 1)) ((m : Int) + 1)).records =
      (List.range (m + 1)).map mkBusiness := by rw [hres]
  refine ⟨⟨some "pizza", some ((m : Int) + 1), none⟩, envN (m + 1),
    (List.range (m + 1)).map mkBusiness, ?_, by simp⟩
  rw [scrape_eq_of_query "pizza" (some ((m : Int) + 1)) none (envN (m + 1)) (by decide)]
  simp only [Option.getD_some]
  rw [hrec]
  rw [if_neg (show ¬ (List.range (m + 1)).map mkBusiness = [] by simp)]

/-- Claim C6: within one search-results view, a scroll that leaves the
rendered listing count unchanged increments the stall counter while one that
changes the count resets it to zero; the view's pagination stops when
`MAX_SCROLL_ATTEMPTS = 10` consecutive stalls accumulate, when the explicit
end-of-list marker is visible, or when the target count is reached. -/
theorem scroll_stall_logic :
    (∀ (n : Int) (b : BatchScript) (st : InnerState),
      b.listings_ok = true → b.listings.isEmpty = false →
      b.new_count = st.previously_counted →
      (inner_step n b st).state.scroll_attempts = st.scroll_attempts + 1) ∧
    (∀ (n : Int) (b : BatchScript) (st : InnerState),
      b.listings_ok = true → b.listings.isEmpty = false →
      ¬ b.new_count = st.previously_counted →
      (inner_step n b st).state.scroll_attempts = 0) ∧
    (∀ (n : Int) (b : BatchScript) (st : InnerState),
      b.listings_ok = true → b.listings.isEmpty = false →
      b.new_count = st.previously_counted →
      MAX_SCROLL_ATTEMPTS ≤ st.scroll_attempts + 1 →
      (inner_step n b st).isDone = true) ∧
    (∀ (n : Int) (b : BatchScript) (st : InnerState),
      b.listings_ok = true → b.listings.isEmpty = false →
      b.end_visible = true →
      (inner_step n b st).isDone = true) ∧
    (∀ (n : Int) (batches : List BatchScript) (st : InnerState),
      n ≤ (st.scraped : Int) → inner_loop n batches st = st) := by
  refine ⟨?_, ?_, ?_, ?_, ?_⟩
  · intro n b st h1 h2 h3
    simp only [inner_step, h1, h2, h3, Bool.not_true, Bool.false_eq_true, if_false,
      if_true, ite_true]
    split <;> first
      | rfl
      | (split <;> rfl)
  · intro n b st h1 h2 h3
    simp only [inner_step, h1, h2, Bool.not_true, Bool.false_eq_true, if_false]
    rw [if_neg h3]
    split <;> rfl
  · intro n b st h1 h2 h3 h4
    simp only [inner_step, h1, h2, h3, Bool.not_true, Bool.false_eq_true, if_false,
      ite_true]
    rw [if_pos h4]
    rfl
  · intro n b st h1 h2 h3
    simp only [inner_step, h1, h2, h3, Bool.not_true, Bool.false_eq_true, if_false]
    split
    · by_cases hb : MAX_SCROLL_ATTEMPTS ≤ st.scroll_attempts + 1
      · rw [if_pos hb]
        rfl
      · rw [if_neg hb]
        simp [StepRes.isDone]
    · simp [StepRes.isDone]
  · intro n batches st h
    cases batches with
    | nil => rfl
    | cons b rest =>
      have : ¬ ((st.scraped : Int) < n) := by omega
      simp [inner_loop, this]

/-- Witness for C6 at concrete inputs: a stalled scroll take the counter from
3 to 4, a growing scroll resets it, the tenth consecutive stall stops the
view, the end-of-list marker stops the view, and a reached target stops the
loop unchanged. -/
theorem scroll_stall_logic_witness :
    (inner_step 5 cb1 cst1).state.scroll_attempts = 4 ∧
    (inner_step 5 cb2 cst1).state.scroll_attempts = 0 ∧
    (inner_step 5 cb1 cst9).isDone = true ∧
    (inner_step 5 cb3 cst1).isDone = true ∧
    inner_loop 5 [cb1] cst5 = cst5 :=
  ⟨scroll_stall_logic.1 5 cb1 cst1 (by rfl) (by rfl) (by rfl),
   scroll_stall_logic.2.1 5 cb2 cst1 (by rfl) (by rfl) (by decide),
   scroll_stall_logic.2.2.1 5 cb1 cst9 (by rfl) (by rfl) (by rfl) (by decide),
   scroll_stall_logic.2.2.2.1 5 cb3 cst1 (by rfl) (by rfl) (by rfl),
   scroll_stall_logic.2.2.2.2 5 [cb1] cst5 (by decide)⟩

/-- Both coordinates are set or neither is: the shape of every
`coordsOfParts` result. -/
theorem coordsOfParts_shape (parts : List (List Char)) :
    coordsOfParts parts = (none, none) ∨
    ∃ a b, coordsOfParts parts = (some a, some b) := by
  unfold coordsOfParts
  rcases h0 : parts.get? 0 with _ | a
  · simp
  · rcases h1 : parts.get? 1 with _ | b
    · simp
    · rcases hx : pyFloat a with _ | x
      · simp [hx]
      · rcases hy : pyFloat b with _ | y
        · simp [hx, hy]
        · exact Or.inr ⟨x, y, by simp [hx, hy]⟩

/-- Claim C7 counterexample: the input `"40,50"` has no `@` segment — the
claim calls such structure malformed and requires both coordinates unset —
yet the code's fallback (`split('/@')[-1]` is the whole string) parses it
and returns both coordinates set. -/
theorem coords_no_at_counterexample :
    extract_coordinates_from_url "40,50" = (some (mkRat 40 1), some (mkRat 50 1)) ∧
    ¬ extract_coordinates_from_url "40,50" = (none, none) := by
  constructor <;> decide

/-- Claim C7 as amended: a URL with a trailing `@lat,lon` segment yields the
numeric pair; no input raises; whenever the candidate tokens are missing or
non-numeric the result is both-unset; and on every input the two coordinates
are both set or both unset, never exactly one. (An input without the `@`
segment is parsed from the whole remaining string, so it may still yield a
pair.) -/
theorem coords_parse_spec :
    extract_coordinates_from_url "https://www.google.com/maps/place/X/@40.7128,-74.0060,15z" =
      (some (mkRat 407128 10000), some (mkRat (-740060) 10000)) ∧
    extract_coordinates_from_url "https://www.google.com/maps" = (none, none) ∧
    extract_coordinates_from_url "" = (none, none) ∧
    (∀ url : String, extract_coordinates_from_url url = (none, none) ∨
      ∃ a b, extract_coordinates_from_url url = (some a, some b)) := by
  refine ⟨by decide, by decide, by decide, fun url => ?_⟩
  unfold extract_coordinates_from_url
  exact coordsOfParts_shape _

/-- Claim C8 counterexample: when the scrape completes with no results, the
endpoint answers HTTP 404 with an error payload (src/main.py lines 338-340),
not the claimed 200 with an empty list. -/
theorem no_results_counterexample :
    (scrape ⟨some "pizza", some 5, some true⟩ envEmpty).1 = 404 ∧
    ¬ (scrape ⟨some "pizza", some 5, some true⟩ envEmpty).1 = 200 := by
  constructor <;> decide

/-- Claim C8 as amended: whenever the scrape returns no records, the
endpoint responds 404 with an error message — the code implements the 404
variant of the "no results" contract, not the canonical 200 with an empty
list. -/
theorem no_results_404 (q : String) (nl : Option Int) (hl : Option Bool)
    (env : ScrapeEnv) (hq : ¬ q = "")
    (hres : (scrape_google_maps q env (nl.getD 20)).records = []) :
    scrape ⟨some q, nl, hl⟩ env = (404, Except.error "No places found for query") := by
  rw [scrape_eq_of_query q nl hl env hq, if_pos hres]

/-- Witness for the amended C8 on the empty environment. -/
theorem no_results_404_witness :
    scrape ⟨some "sushi", some 3, none⟩ envEmpty =
      (404, Except.error "No places found for query") :=
  no_results_404 "sushi" (some 3) none envEmpty (by decide) (by rfl)

/-- Claim C9: `clean_business_name` strips the known UI suffix annotation
and surrounding whitespace from a raw name, and returns the sentinel
"Unknown" for both absent (Python `None`) and empty input — Python's `if
name` is falsy exactly on those. -/
theorem clean_name_spec :
    clean_business_name (some "Joe's Pizza · Visited link") = "Joe's Pizza" ∧
    clean_business_name none = "Unknown" ∧
    clean_business_name (some "") = "Unknown" ∧
    clean_business_name (some "  Joes Pizza · Visited link  ") = "Joes Pizza" := by
  refine ⟨by decide, rfl, by decide, by decide⟩

/-!  ## Counting invariants (C10)  -/

theorem process_listing_le (sc : ListingScript) (ml : BusinessList) (s : Nat) :
    (process_listing sc ml s).2 ≤ s + 1 := by
  simp only [process_listing]
  repeat' split
  all_goals simp

theorem process_listing_len (sc : ListingScript) (ml : BusinessList) (s : Nat)
    (h : ml.business_list.length = s) :
    (process_listing sc ml s).1.business_list.length = (process_listing sc ml s).2 := by
  simp only [process_listing]
  split
  · rcases hex : extract_business sc.fields with e | b
    · simp [hex, h]
    · simp only [hex]
      by_cases hk : bkey b ∈ ml.seen_businesses
      · rw [add_business_dup ml b hk]
        simp [h]
      · rw [add_business_fresh ml b hk]
        simp [h]
  · simpa using h

theorem process_listings_le (n : Int) (ls : List ListingScript) (ml : BusinessList)
    (s : Nat) : (process_listings n ls ml s).2 ≤ max s n.toNat := by
  induction ls generalizing ml s with
  | nil =>
    simp only [process_listings]
    exact Nat.le_max_left _ _
  | cons a rest ih =>
    unfold process_listings
    by_cases hs : n ≤ (s : Int)
    · rw [if_pos hs]
      exact Nat.le_max_left _ _
    · rw [if_neg hs]
      have h1 := process_listing_le a ml s
      have h2 := ih (process_listing a ml s).1 (process_listing a ml s).2
      have hs' : s + 1 ≤ n.toNat := by omega
      have h3 : max (process_listing a ml s).2 n.toNat = n.toNat :=
        Nat.max_eq_right (by omega)
      rw [h3] at h2
      exact le_trans h2 (Nat.le_max_right _ _)

theorem process_listings_len (n : Int) (ls : List ListingScript) (ml : BusinessList)
    (s : Nat) (h : ml.business_list.length = s) :
    (process_listings n ls ml s).1.business_list.length =
      (process_listings n ls ml s).2 := by
  induction ls generalizing ml s with
  | nil => simpa using h
  | cons a rest ih =>
    unfold process_listings
    by_cases hs : n ≤ (s : Int)
    · rw [if_pos hs]
      simpa using h
    · rw [if_neg hs]
      exact ih _ _ (process_listing_len a ml s h)

theorem inner_step_le (n : Int) (b : BatchScript) (st : InnerState) :
    (inner_step n b st).state.scraped ≤ max st.scraped n.toNat := by
  have hp := process_listings_le n b.listings st.ml st.scraped
  simp only [inner_step]
  repeat' split
  all_goals first
    | exact hp
    | exact Nat.le_max_left _ _

theorem inner_step_len (n : Int) (b : BatchScript) (st : InnerState)
    (h : st.ml.business_list.length = st.scraped) :
    (inner_step n b st).state.ml.business_list.length =
      (inner_step n b st).state.scraped := by
  have hp := process_listings_len n b.listings st.ml st.scraped h
  simp only [inner_step]
  repeat' split
  all_goals first
    | exact hp
    | exact h

theorem inner_loop_le (n : Int) (batches : List BatchScript) (st : InnerState) :
    (inner_loop n batches st).scraped ≤ max st.scraped n.toNat := by
  induction batches generalizing st with
  | nil => exact Nat.le_max_left _ _
  | cons b rest ih =>
    unfold inner_loop
    split
    · cases hstep : inner_step n b st with
      | done s2 =>
        have h1 := inner_step_le n b st
        rw [hstep] at h1
        exact h1
      | next s2 =>
        have h1 := inner_step_le n b st
        rw [hstep] at h1
        have h2 := ih s2
        have h3 : max s2.scraped n.toNat ≤ max st.scraped n.toNat :=
          Nat.max_le.mpr ⟨h1, Nat.le_max_right _ _⟩
        exact le_trans h2 h3
    · exact Nat.le_max_left _ _

theorem inner_loop_len (n : Int) (batches : List BatchScript) (st : InnerState)
    (h : st.ml.business_list.length = st.scraped) :
    (inner_loop n batches st).ml.business_list.length =
      (inner_loop n batches st).scraped := by
  induction batches generalizing st with
  | nil => exact h
  | cons b rest ih =>
    unfold inner_loop
    split
    · cases hstep : inner_step n b st with
      | done s2 =>
        have h1 := inner_step_len n b st h
        rw [hstep] at h1
        exact h1
      | next s2 =>
        have h1 := inner_step_len n b st h
        rw [hstep] at h1
        exact ih s2 h1
    · exact h

theorem scrape_loop_le (n : Int) (pool : List (String × String))
    (iters : List (Nat × SessionScript)) (st : OuterState) :
    (scrape_loop n pool iters st).scraped ≤ max st.scraped n.toNat := by
  induction iters generalizing st with
  | nil =>
    rw [scrape_loop]
    split
    · exact Nat.le_max_left _ _
    · exact Nat.le_max_left _ _
  | cons it rest ih =>
    obtain ⟨r, sess⟩ := it
    by_cases hcond : ((st.scraped : Int) < n ∧ pool ≠ [])
    · rw [scrape_loop, if_pos hcond]
      cases hc : pool.get? (r % pool.length) with
      | none => exact Nat.le_max_left _ _
      | some city =>
        simp only [hc]
        by_cases h1 : sess.search_ok = true
        · rw [if_pos h1]
          by_cases h2 : sess.count_ok = true
          · rw [if_pos h2]
            by_cases h3 : sess.initial_count = 0
            · rw [if_pos h3]
              exact ih _
            · rw [if_neg h3]
              have hl := inner_loop_le n sess.batches
                ⟨st.ml, st.scraped, 0, sess.initial_count⟩
              refine le_trans (ih _) ?_
              exact Nat.max_le.mpr ⟨hl, Nat.le_max_right _ _⟩
          · rw [if_neg h2]
            exact ih _
        · rw [if_neg h1]
          exact ih _
    · rw [scrape_loop, if_neg hcond]
      exact Nat.le_max_left _ _

theorem scrape_loop_len (n : Int) (pool : List (String × String))
    (iters : List (Nat × SessionScript)) (st : OuterState)
    (h : st.ml.business_list.length = st.scraped) :
    (scrape_loop n pool iters st).ml.business_list.length =
      (scrape_loop n pool iters st).scraped := by
  induction iters generalizing st with
  | nil =>
    rw [scrape_loop]
    split
    · exact h
    · exact h
  | cons it rest ih =>
    obtain ⟨r, sess⟩ := it
    by_cases hcond : ((st.scraped : Int) < n ∧ pool ≠ [])
    · rw [scrape_loop, if_pos hcond]
      cases hc : pool.get? (r % pool.length) with
      | none => exact h
      | some city =>
        simp only [hc]
        by_cases h1 : sess.search_ok = true
        · rw [if_pos h1]
          by_cases h2 : sess.count_ok = true
          · rw [if_pos h2]
            by_cases h3 : sess.initial_count = 0
            · rw [if_pos h3]
              exact ih _ h
            · rw [if_neg h3]
              exact ih _ (inner_loop_len n sess.batches
                ⟨st.ml, st.scraped, 0, sess.initial_count⟩ h)
          · rw [if_neg h2]
            exact ih _ h
        · rw [if_neg h1]
          exact ih _ h
    · rw [scrape_loop, if_neg hcond]
      exact h

theorem scrape_loop_stop (n : Int) (pool : List (String × String))
    (iters : List (Nat × SessionScript)) (st : OuterState)
    (h : n ≤ (st.scraped : Int)) : scrape_loop n pool iters st = st := by
  rw [scrape_loop.eq_def]
  rw [if_neg (fun hc => absurd hc.1 (by omega))]

/-- Claim C10: `scrape_google_maps` returns at most `max n 0` records for a
target of `n` (`Int.toNat` is exactly that clamp), and for `n ≤ 0` it
returns the empty list: a record is appended only while the count of
successfully added records is below the target, and that count increments
exactly when a record is added (the invariant `business_list.length =
listings_scraped` is preserved by every step). -/
theorem scrape_count_bound (q : String) (env : ScrapeEnv) (n : Int) :
    (scrape_google_maps q env n).records.length ≤ n.toNat ∧
    (n ≤ 0 → (scrape_google_maps q env n).records = []) := by
  constructor
  · unfold scrape_google_maps
    split
    · simp
    · have h1 := scrape_loop_le n env.pool env.iters ⟨{}, 0, []⟩
      have h2 := scrape_loop_len n env.pool env.iters ⟨{}, 0, []⟩ (by rfl)
      simp only []
      rw [h2]
      simpa using h1
  · intro hn
    unfold scrape_google_maps
    split
    · rfl
    · rw [scrape_loop_stop n env.pool env.iters ⟨{}, 0, []⟩ (by simpa using hn)]

/-- Witness for C10 at a negative target: nothing is scraped. -/
theorem scrape_count_bound_witness :
    (scrape_google_maps "a" (envN 1) (-1)).records = [] ∧
    (scrape_google_maps "a" (envN 1) (-1)).records.length ≤ (-1 : Int).toNat :=
  ⟨(scrape_count_bound "a" (envN 1) (-1)).2 (by norm_num),
   (scrape_count_bound "a" (envN 1) (-1)).1⟩
